import Mathlib

/-!
Verification of the real-time city WebSocket client of the
Smart-Traffic-Management-System dashboard.

The development shallowly embeds:

* the `ws.onmessage` handler of `useCityWebSocket`
  (store merge logic for `city_update`, `incident_update` and
  `ambulance_route_update` messages),
* the reconnect / close / send state machine of the same hook,
* `WebSocketService.handleMessage` of `websocketService.ts`,
* the replay ring buffer and clamped cursor of `ReplayPage`.

JavaScript runtime values coming out of `JSON.parse` are modelled by the
`Json` inductive below.  Property access `base.k` is modelled by `jsGet`,
which throws (returns `.error`) when the base is `null`, mirrors the JS
TypeError on reading a property of `null`, and yields `undefined`
(modelled as `none`) on other non-object bases.  Strict equality `===`
on extracted id values is modelled structurally, which coincides with JS
semantics on the primitive (string) ids declared in `types/city.ts`.
`JSON.parse` itself is a platform primitive; its outcome is passed in as
an `Except Unit Json` value (`.error` = the parse threw).
-/

set_option maxHeartbeats 1000000
set_option maxRecDepth 8000

namespace STMS

/-- JSON runtime values, the possible results of a successful `JSON.parse`. -/
inductive Json where
  | null
  | bool (b : Bool)
  | num (n : Int)
  | str (s : String)
  | arr (elems : List Json)
  | obj (fields : List (String × Json))

mutual

/-- Decidable structural equality on `Json` (written by hand: automatic
deriving does not handle the nesting through `List`). -/
def Json.decEq : (a b : Json) → Decidable (a = b)
  | .null, .null => .isTrue rfl
  | .bool a, .bool b =>
      if h : a = b then .isTrue (by rw [h]) else .isFalse (fun he => by cases he; exact h rfl)
  | .num a, .num b =>
      if h : a = b then .isTrue (by rw [h]) else .isFalse (fun he => by cases he; exact h rfl)
  | .str a, .str b =>
      if h : a = b then .isTrue (by rw [h]) else .isFalse (fun he => by cases he; exact h rfl)
  | .arr xs, .arr ys =>
      match Json.decEqList xs ys with
      | .isTrue h => .isTrue (by rw [h])
      | .isFalse h => .isFalse (fun he => by cases he; exact h rfl)
  | .obj xs, .obj ys =>
      match Json.decEqFields xs ys with
      | .isTrue h => .isTrue (by rw [h])
      | .isFalse h => .isFalse (fun he => by cases he; exact h rfl)
  | .null, .bool _ => .isFalse (fun h => Json.noConfusion h)
  | .null, .num _ => .isFalse (fun h => Json.noConfusion h)
  | .null, .str _ => .isFalse (fun h => Json.noConfusion h)
  | .null, .arr _ => .isFalse (fun h => Json.noConfusion h)
  | .null, .obj _ => .isFalse (fun h => Json.noConfusion h)
  | .bool _, .null => .isFalse (fun h => Json.noConfusion h)
  | .bool _, .num _ => .isFalse (fun h => Json.noConfusion h)
  | .bool _, .str _ => .isFalse (fun h => Json.noConfusion h)
  | .bool _, .arr _ => .isFalse (fun h => Json.noConfusion h)
  | .bool _, .obj _ => .isFalse (fun h => Json.noConfusion h)
  | .num _, .null => .isFalse (fun h => Json.noConfusion h)
  | .num _, .bool _ => .isFalse (fun h => Json.noConfusion h)
  | .num _, .str _ => .isFalse (fun h => Json.noConfusion h)
  | .num _, .arr _ => .isFalse (fun h => Json.noConfusion h)
  | .num _, .obj _ => .isFalse (fun h => Json.noConfusion h)
  | .str _, .null => .isFalse (fun h => Json.noConfusion h)
  | .str _, .bool _ => .isFalse (fun h => Json.noConfusion h)
  | .str _, .num _ => .isFalse (fun h => Json.noConfusion h)
  | .str _, .arr _ => .isFalse (fun h => Json.noConfusion h)
  | .str _, .obj _ => .isFalse (fun h => Json.noConfusion h)
  | .arr _, .null => .isFalse (fun h => Json.noConfusion h)
  | .arr _, .bool _ => .isFalse (fun h => Json.noConfusion h)
  | .arr _, .num _ => .isFalse (fun h => Json.noConfusion h)
  | .arr _, .str _ => .isFalse (fun h => Json.noConfusion h)
  | .arr _, .obj _ => .isFalse (fun h => Json.noConfusion h)
  | .obj _, .null => .isFalse (fun h => Json.noConfusion h)
  | .obj _, .bool _ => .isFalse (fun h => Json.noConfusion h)
  | .obj _, .num _ => .isFalse (fun h => Json.noConfusion h)
  | .obj _, .str _ => .isFalse (fun h => Json.noConfusion h)
  | .obj _, .arr _ => .isFalse (fun h => Json.noConfusion h)

/-- Decidable equality on lists of `Json` values. -/
def Json.decEqList : (xs ys : List Json) → Decidable (xs = ys)
  | [], [] => .isTrue rfl
  | [], _ :: _ => .isFalse (fun h => List.noConfusion h)
  | _ :: _, [] => .isFalse (fun h => List.noConfusion h)
  | x :: xs, y :: ys =>
      match Json.decEq x y with
      | .isFalse h1 => .isFalse (fun h => by injection h with hh _; exact h1 hh)
      | .isTrue h1 =>
          match Json.decEqList xs ys with
          | .isTrue h2 => .isTrue (by rw [h1, h2])
          | .isFalse h2 => .isFalse (fun h => by injection h with _ ht; exact h2 ht)

/-- Decidable equality on object field lists. -/
def Json.decEqFields : (xs ys : List (String × Json)) → Decidable (xs = ys)
  | [], [] => .isTrue rfl
  | [], _ :: _ => .isFalse (fun h => List.noConfusion h)
  | _ :: _, [] => .isFalse (fun h => List.noConfusion h)
  | (k1, v1) :: xs, (k2, v2) :: ys =>
      if hk : k1 = k2 then
        match Json.decEq v1 v2 with
        | .isFalse h1 =>
            .isFalse (fun h => by injection h with hh _; exact h1 (congrArg Prod.snd hh))
        | .isTrue h1 =>
            match Json.decEqFields xs ys with
            | .isTrue h2 => .isTrue (by rw [hk, h1, h2])
            | .isFalse h2 => .isFalse (fun h => by injection h with _ ht; exact h2 ht)
      else
        .isFalse (fun h => by injection h with hh _; exact hk (congrArg Prod.fst hh))

end

instance : DecidableEq Json := Json.decEq

/-- Field lookup in an object literal (first occurrence; parsed JSON objects
have distinct keys). -/
def Json.lookupField : List (String × Json) → String → Option Json
  | [], _ => none
  | (k, v) :: rest, key => if k = key then some v else Json.lookupField rest key

/-- Pure property read: `some v` when the base is an object carrying the key,
`none` (JS `undefined`) otherwise. -/
def jsField : Json → String → Option Json
  | .obj kvs, k => Json.lookupField kvs k
  | _, _ => none

/-- JS property access `base.k`: throws a TypeError when the base is `null`,
yields `undefined` on other non-object bases (primitives are boxed, arrays
simply lack the key). -/
def jsGet (j : Json) (k : String) : Except Unit (Option Json) :=
  match j with
  | .null => .error ()
  | _ => .ok (jsField j k)

/-- JS nullish coalescing `v ?? d`: the default replaces `undefined` and
`null`. -/
def jsNullish (v : Option Json) (d : Json) : Json :=
  match v with
  | none => d
  | some .null => d
  | some x => x

/-- JS optional chain `a?.k`: `undefined` when the base is `undefined` or
`null`, otherwise a plain property read. -/
def jsOptChain (v : Option Json) (k : String) : Option Json :=
  match v with
  | none => none
  | some .null => none
  | some j => jsField j k

/-- React state of `useCityWebSocket` that the merge logic touches:
`cityUpdate` (last full snapshot message, initially `null`), and the
`incidents`, `routes` and `events` collections (initially `[]`).  The
collections are stored as raw `Json` values exactly as the untyped JS
runtime does. -/
structure CityStore where
  cityUpdate : Option Json
  incidents : Json
  routes : Json
  events : Json
  deriving DecidableEq

/-- Initial store: `useState` initialisers of the hook. -/
def CityStore.init : CityStore :=
  { cityUpdate := none, incidents := .arr [], routes := .arr [], events := .arr [] }

/-- Derived node list of the hook: `cityUpdate?.city?.nodes ?? []`. -/
def storeNodes (s : CityStore) : Json :=
  jsNullish (jsOptChain (jsOptChain s.cityUpdate "city") "nodes") (.arr [])

/-- `city_update` branch of `ws.onmessage`:
`setCityUpdate(cu); setIncidents(cu.incidents ?? []);
setRoutes(cu.ambulance_routes ?? []); setEvents(cu.event_log_tail ?? [])`.
The previous store is discarded wholesale. -/
def applyCityUpdate (j : Json) (_s : CityStore) : Except Unit CityStore := do
  let incs ← jsGet j "incidents"
  let rts ← jsGet j "ambulance_routes"
  let evs ← jsGet j "event_log_tail"
  pure { cityUpdate := some j
       , incidents := jsNullish incs (.arr [])
       , routes := jsNullish rts (.arr [])
       , events := jsNullish evs (.arr []) }

/-- `prev.filter((x) => x.k !== target)`: keeps the elements whose `k`
property differs from `target`.  The per-element property read throws on a
`null` element, as in JS. -/
def jsFilterIdNe (k : String) (target : Option Json) : List Json → Except Unit (List Json)
  | [] => .ok []
  | x :: rest => do
      let xid ← jsGet x k
      let tail ← jsFilterIdNe k target rest
      if xid = target then pure tail else pure (x :: tail)

/-- `ambulance_route_update` branch:
`const { route } = msg;
setRoutes(prev => [route, ...prev.filter(r => r.route_id !== route.route_id)])`.
The read `route.route_id` throws when `route` is `undefined` or `null`; the
model evaluates it once up front (in JS it is evaluated inside the first
filter callback — indistinguishable whenever a real route object is
carried, which is the only case the claims exercise).  `prev.filter` throws
when the stored collection is not an array. -/
def applyRouteUpdate (j : Json) (s : CityStore) : Except Unit CityStore := do
  let route? ← jsGet j "route"
  match route? with
  | none => .error ()
  | some route => do
      let rid ← jsGet route "route_id"
      match s.routes with
      | .arr prev => do
          let filtered ← jsFilterIdNe "route_id" rid prev
          pure { s with routes := .arr (route :: filtered) }
      | _ => .error ()

/-- `incident_update` branch:
`const { incident } = msg;
setIncidents(prev => [incident, ...prev.filter(i => i.incident_id !== incident.incident_id)])`. -/
def applyIncidentUpdate (j : Json) (s : CityStore) : Except Unit CityStore := do
  let incident? ← jsGet j "incident"
  match incident? with
  | none => .error ()
  | some incident => do
      let iid ← jsGet incident "incident_id"
      match s.incidents with
      | .arr prev => do
          let filtered ← jsFilterIdNe "incident_id" iid prev
          pure { s with incidents := .arr (incident :: filtered) }
      | _ => .error ()

/-- Dispatch on `msg.type` inside `ws.onmessage` (after the parse guard):
the three recognised kinds update the store, every other value falls
through and the handler returns with the store untouched.  Note that the
very first read `msg.type` throws when the parsed value is `null`. -/
def processMsg (s : CityStore) (j : Json) : Except Unit CityStore := do
  let t ← jsGet j "type"
  if t = some (.str "city_update") then applyCityUpdate j s
  else if t = some (.str "ambulance_route_update") then applyRouteUpdate j s
  else if t = some (.str "incident_update") then applyIncidentUpdate j s
  else pure s

/-- Whole `ws.onmessage` body of the hook: `try { msg = JSON.parse(evt.data) }
catch { return; }` followed by the dispatch.  Only `JSON.parse` is inside the
`try`; an exception thrown by the dispatch itself propagates. -/
def onMessageRaw (p : Except Unit Json) (s : CityStore) : Except Unit CityStore :=
  match p with
  | .error _ => .ok s
  | .ok j => processMsg s j

/-- Sequential processing of a stream of parsed messages by the hook. -/
def processAll (s : CityStore) : List Json → Except Unit CityStore
  | [] => .ok s
  | j :: js => do
      let s2 ← processMsg s j
      processAll s2 js

/-! ### WebSocketService.handleMessage (websocketService.ts) -/

/-- Events emitted by `WebSocketService.handleMessage` to its listeners.
Field values that may be `undefined` are carried as `Option Json`. -/
inductive Emitted where
  | simulationUpdate (data : Json)
  | cityUpdate (msg : Json)
  | incidentUpdate (msg : Json)
  | ambulanceRouteUpdate (msg : Json)
  | connectionStatus (status timestamp : Option Json)
  | pong (msg : Json)
  | errorMsg (error timestamp : Option Json)
  deriving DecidableEq

/-- JS truthiness test used by `if (!message)` and `if (message.data)`:
`null`, `false`, `0` and the empty string are falsy (`NaN` and `undefined`
do not arise from a `JSON.parse` result / present field). -/
def jsFalsy : Json → Bool
  | .null => true
  | .bool b => !b
  | .num n => n == 0
  | .str s => s.isEmpty
  | .arr _ => false
  | .obj _ => false

/-- `WebSocketService.handleMessage`: guard
`if (!message || typeof message.type !== "string") return;` followed by the
`switch (message.type)` dispatch; the `default` branch only logs.  The
result lists the `emit` calls performed. -/
def handleMessage (m : Json) : List Emitted :=
  if jsFalsy m then []
  else
    match jsField m "type" with
    | some (.str t) =>
        if t = "simulation_update" then
          match jsField m "data" with
          | some d => if jsFalsy d then [] else [.simulationUpdate d]
          | none => []
        else if t = "city_update" then [.cityUpdate m]
        else if t = "incident_update" then [.incidentUpdate m]
        else if t = "ambulance_route_update" then [.ambulanceRouteUpdate m]
        else if t = "connection_status" then
          [.connectionStatus (jsField m "message") (jsField m "timestamp")]
        else if t = "pong" then [.pong m]
        else if t = "error" then [.errorMsg (jsField m "message") (jsField m "timestamp")]
        else []
    | _ => []

/-- `ws.onmessage` of the service: the `try` block wraps both `JSON.parse`
and `handleMessage`, so a parse failure is swallowed and nothing is
emitted. -/
def serviceOnMessage (p : Except Unit Json) : List Emitted :=
  match p with
  | .error _ => []
  | .ok m => handleMessage m

/-! ### Connection state machine of useCityWebSocket

`reconnectAttemptRef`, `reconnectTimerRef`, `status` and `wsRef` of the
hook, together with the ghost history fields `armedLog` (every reconnect
delay passed to `window.setTimeout`, in order), `connects` (number of
`new WebSocket(url)` constructions) and `sent` (payloads passed to
`ws.send`), which only record what happened and influence nothing.
`pendingCloseEvents` counts sockets that were closed or replaced while
still connecting/open: their `onclose` callbacks are still going to fire
(the hook never detaches handlers).  `lastError` and the `debug` log are
not modelled; the `try`/`catch` around `new WebSocket(url)` is modelled on
its success path (the constructor is assumed not to throw). -/

/-- Connection status labels of the hook. -/
inductive ConnectionStatus where
  | connecting
  | connected
  | disconnected
  | error
  deriving DecidableEq

/-- readyState of the socket currently held by `wsRef` (the hook never
observes CLOSING because closing sockets are always detached first). -/
inductive SockState where
  | connectingS
  | openS
  | closedS
  deriving DecidableEq

/-- Options of `useCityWebSocket`: `reconnectIntervalMs` (default 1000) and
`reconnectMaxAttempts` (default 10). -/
structure WsConfig where
  reconnectIntervalMs : Nat
  reconnectMaxAttempts : Nat
  deriving DecidableEq

/-- Mutable state of the hook relevant to connection management, plus ghost
history fields. -/
structure ConnState where
  reconnectAttempt : Nat
  reconnectTimer : Option Nat
  status : ConnectionStatus
  sock : Option SockState
  pendingCloseEvents : Nat
  armedLog : List Nat
  connects : Nat
  sent : List Json
  deriving DecidableEq

/-- `scheduleReconnect`: clear any pending timer; if the attempt counter
already reached `reconnectMaxAttempts`, set terminal `error` status and give
up; otherwise increment the counter and arm a timer with delay
`reconnectIntervalMs * attempt`. -/
def scheduleReconnect (cfg : WsConfig) (s : ConnState) : ConnState :=
  let s := { s with reconnectTimer := none }
  if cfg.reconnectMaxAttempts ≤ s.reconnectAttempt then
    { s with status := .error }
  else
    let attempt := s.reconnectAttempt + 1
    let delay := cfg.reconnectIntervalMs * attempt
    { s with reconnectAttempt := attempt
           , reconnectTimer := some delay
           , status := .connecting
           , armedLog := s.armedLog ++ [delay] }

/-- `closeSocket`: clear the reconnect timer, drop `wsRef`, and call
`ws.close()` when the old socket was OPEN or CONNECTING — whose `onclose`
will still fire later (recorded in `pendingCloseEvents`). -/
def closeSocket (s : ConnState) : ConnState :=
  let s := { s with reconnectTimer := none }
  match s.sock with
  | some .connectingS =>
      { s with sock := none, pendingCloseEvents := s.pendingCloseEvents + 1 }
  | some .openS =>
      { s with sock := none, pendingCloseEvents := s.pendingCloseEvents + 1 }
  | _ => { s with sock := none }

/-- `connect()`: `closeSocket()`, `setStatus("connecting")`, then
`new WebSocket(url)` stored in `wsRef` (CONNECTING). -/
def connect (s : ConnState) : ConnState :=
  let s := closeSocket s
  { s with status := .connecting, sock := some .connectingS, connects := s.connects + 1 }

/-- `sendMessage(msg)`: when `wsRef` is absent or not OPEN, log and return
`false` with nothing transmitted; otherwise `ws.send(JSON.stringify(msg))`
and return `true`. -/
def sendMessage (s : ConnState) (msg : Json) : ConnState × Bool :=
  match s.sock with
  | some .openS => ({ s with sent := s.sent ++ [msg] }, true)
  | _ => (s, false)

/-- Occurrences that drive the hook state machine: the four socket
callbacks, the reconnect timer firing, and the two caller operations. -/
inductive WsEvent where
  | opened
  | closedAttached
  | closedDetached
  | errored
  | timerFire
  | manualConnect
  | manualClose
  deriving DecidableEq

/-- One transition of the hook.  `opened`/`closedAttached`/`errored` are the
`onopen`/`onclose`/`onerror` callbacks of the socket currently in `wsRef`;
`closedDetached` is the `onclose` of a socket closed by `closeSocket` (the
handlers stay attached, so it still runs `scheduleReconnect`); `timerFire`
is the reconnect timer invoking `connect()`. -/
def stepEvent (cfg : WsConfig) (s : ConnState) : WsEvent → ConnState
  | .opened =>
      { s with sock := some .openS, reconnectAttempt := 0, status := .connected }
  | .closedAttached =>
      scheduleReconnect cfg { s with sock := some .closedS, status := .disconnected }
  | .closedDetached =>
      scheduleReconnect cfg
        { s with pendingCloseEvents := s.pendingCloseEvents - 1, status := .disconnected }
  | .errored => { s with status := .error }
  | .timerFire => connect { s with reconnectTimer := none }
  | .manualConnect => connect s
  | .manualClose => closeSocket s

/-- Whether an event can actually occur in a state: socket callbacks need a
matching live socket, a detached close needs an outstanding closed socket,
and the timer can only fire while armed. -/
def validEvent (s : ConnState) : WsEvent → Bool
  | .opened => s.sock == some .connectingS
  | .closedAttached => s.sock == some .connectingS || s.sock == some .openS
  | .closedDetached => 0 < s.pendingCloseEvents
  | .errored => s.sock == some .connectingS || s.sock == some .openS
  | .timerFire => s.reconnectTimer.isSome
  | .manualConnect => true
  | .manualClose => true

/-- Run a sequence of events. -/
def runEvents (cfg : WsConfig) (s : ConnState) (es : List WsEvent) : ConnState :=
  es.foldl (stepEvent cfg) s

/-- Check that every event of the sequence is possible when its turn comes. -/
def validFrom (cfg : WsConfig) : ConnState → List WsEvent → Bool
  | _, [] => true
  | s, e :: es => validEvent s e && validFrom cfg (stepEvent cfg s e) es

/-- State right after a fresh mount followed by a successful `onopen`. -/
def connectedState : ConnState :=
  { reconnectAttempt := 0, reconnectTimer := none, status := .connected
  , sock := some .openS, pendingCloseEvents := 0, armedLog := [], connects := 1
  , sent := [] }

/-- Default configuration of the hook (1000 ms base interval, 10 attempts). -/
def defaultConfig : WsConfig :=
  { reconnectIntervalMs := 1000, reconnectMaxAttempts := 10 }

/-- States from which the machine is quiescent: no armed timer, no pending
close callback, and no socket able to fire `onopen`/`onclose`/`onerror`. -/
def Dormant (s : ConnState) : Prop :=
  s.reconnectTimer = none ∧ s.pendingCloseEvents = 0 ∧
    (s.sock = none ∨ s.sock = some .closedS)

instance (s : ConnState) : Decidable (Dormant s) := by
  unfold Dormant; infer_instance

/-! ### ReplayPage ring buffer and cursor (TESTING_GUIDE.md source) -/

/-- Record effect of `ReplayPage`:
`bufferRef.current = [...bufferRef.current, latestCityUpdate].slice(-300)`.
`Array.prototype.slice(-300)` keeps the last 300 elements (everything when
shorter). -/
def recordSnapshot {α : Type} (buf : List α) (snap : α) : List α :=
  let appended := buf ++ [snap]
  appended.drop (appended.length - 300)

/-- Guarded record effect: `if (!latestCityUpdate || !isRecording) return;`
(`latestCityUpdate` is truthy exactly when a snapshot is present). -/
def recordEffect {α : Type} (latest : Option α) (isRecording : Bool) (buf : List α) : List α :=
  match latest, isRecording with
  | some snap, true => recordSnapshot buf snap
  | _, _ => buf

/-- Current snapshot of `ReplayPage`:
`buffer.length ? buffer[Math.max(0, Math.min(playIndex, buffer.length - 1))] : null`. -/
def currentSnapshot {α : Type} (buf : List α) (playIndex : Int) : Option α :=
  if buf.length = 0 then none
  else buf[(max 0 (min playIndex ((buf.length : Int) - 1))).toNat]?

/-- Combined client: connection management state plus the message store. -/
structure ClientState where
  conn : ConnState
  store : CityStore
  deriving DecidableEq

/-- `sendMessage` lifted to the whole client: it only ever touches the
connection side (the store setters are never invoked on the send path). -/
def clientSend (c : ClientState) (msg : Json) : ClientState × Bool :=
  let r := sendMessage c.conn msg
  ({ c with conn := r.1 }, r.2)

/-- Client with an OPEN socket, used by the send witness. -/
def wOpenClient : ClientState := { conn := connectedState, store := CityStore.init }

/-- Client whose socket reference was dropped, used by the send witness. -/
def wClosedClient : ClientState :=
  { conn := { connectedState with sock := none }, store := CityStore.init }

/-- Quiescent terminal-error state reached after the attempt cap. -/
def errDormantState : ConnState :=
  { reconnectAttempt := 10, reconnectTimer := none, status := .error
  , sock := some .closedS, pendingCloseEvents := 0, armedLog := [], connects := 3
  , sent := [] }

/-- Invariant tying the ghost log of armed reconnect delays to the attempt
counter: the log is nondecreasing and bounded by the delay of the current
attempt. -/
def ArmedInv (cfg : WsConfig) (s : ConnState) : Prop :=
  List.Sorted (· ≤ ·) s.armedLog
    ∧ ∀ d ∈ s.armedLog, d ≤ cfg.reconnectIntervalMs * s.reconnectAttempt

/-- Concrete inputs for the witnesses: an incident created then updated, a
second unrelated incident, a route, and a full snapshot message. -/
def wInc1 : Json := .obj [("incident_id", .str "A"), ("status", .str "active")]

/-- Updated incident with the same id `A` and a different status. -/
def wInc2 : Json := .obj [("incident_id", .str "A"), ("status", .str "cleared")]

/-- Unrelated incident with id `B`. -/
def wIncB : Json := .obj [("incident_id", .str "B"), ("status", .str "active")]

/-- Concrete route with id `R1`. -/
def wRt : Json := .obj [("route_id", .str "R1"), ("status", .str "enroute")]

/-- Concrete full snapshot message. -/
def wCu : Json :=
  .obj [("type", .str "city_update"), ("city", .obj [("nodes", .arr [.str "n1"])]),
    ("incidents", .arr [.str "i2"]), ("ambulance_routes", .arr [.str "r2"]),
    ("event_log_tail", .arr [])]

/-- Stream: one incremental incident update, then the snapshot. -/
def wMsgs : List Json :=
  [.obj [("type", .str "incident_update"), ("incident", wInc1)], wCu]

/-- Store contents the snapshot witness ends in. -/
def wStore : CityStore :=
  { cityUpdate := some wCu, incidents := .arr [.str "i2"], routes := .arr [.str "r2"]
  , events := .arr [] }

/-- Store holding incidents `A` (old) and `B`, used by the upsert witness. -/
def wS2 : CityStore :=
  { cityUpdate := none, incidents := .arr [wInc1, wIncB], routes := .arr [], events := .arr [] }

/-- Incremental update message replacing incident `A`. -/
def wMsg2 : Json := .obj [("type", .str "incident_update"), ("incident", wInc2)]

/-- Route update message inserting route `R1`. -/
def wMsgR : Json := .obj [("type", .str "ambulance_route_update"), ("route", wRt)]

/-! ### Helper lemmas -/

/-- Property access that returned a value proves the base was not `null` and
agrees with the pure field read. -/
lemma jsGet_eq_ok {j : Json} {k : String} {v : Option Json}
    (h : jsGet j k = .ok v) : j ≠ .null ∧ jsField j k = v := by
  cases j <;> simp [jsGet, jsField] at h ⊢ <;> simp [jsField, h]

/-- Only objects have present fields. -/
lemma jsField_eq_some_obj {j : Json} {k : String} {v : Json}
    (h : jsField j k = some v) : ∃ kvs, j = .obj kvs := by
  cases j <;> simp [jsField] at h ⊢

/-- Processing distributes over list append. -/
lemma processAll_append (s : CityStore) (l₁ l₂ : List Json) :
    processAll s (l₁ ++ l₂)
      = (processAll s l₁).bind (fun s2 => processAll s2 l₂) := by
  induction l₁ generalizing s with
  | nil => rfl
  | cons j js ih =>
      simp only [List.cons_append, processAll]
      cases h : processMsg s j with
      | error e => rfl
      | ok s2 => exact ih s2

/-- Filtering a collection whose elements are all non-`null` never throws and
agrees with the pure `List.filter`. -/
lemma jsFilterIdNe_eq_filter {k : String} {t : Option Json} {xs : List Json}
    (h : ∀ x ∈ xs, x ≠ Json.null) :
    jsFilterIdNe k t xs = .ok (xs.filter (fun x => !decide (jsField x k = t))) := by
  induction xs with
  | nil => simp [jsFilterIdNe]
  | cons x rest ih =>
      have hx : x ≠ Json.null := h x (List.mem_cons_self x rest)
      have hrest : ∀ y ∈ rest, y ≠ Json.null := fun y hy => h y (List.mem_cons_of_mem x hy)
      have hg : jsGet x k = .ok (jsField x k) := by
        cases x <;> simp [jsGet] at hx ⊢
      simp only [jsFilterIdNe, hg, ih hrest, List.filter_cons]
      by_cases hxk : jsField x k = t <;>
        simp [hxk, Bind.bind, Except.bind, Pure.pure, Except.pure]

/-- Core properties of the upsert `new :: prev.filter (fun x => !p x)` for any
membership test `p` satisfied by `new`. -/
lemma upsertList_spec {α : Type} (p : α → Bool) (new : α) (xs : List α)
    (hp : p new = true) :
    (new :: xs.filter (fun x => !p x)).countP p = 1
    ∧ (new :: xs.filter (fun x => !p x)).head? = some new
    ∧ (new :: xs.filter (fun x => !p x)).filter (fun x => !p x)
        = xs.filter (fun x => !p x)
    ∧ ((∀ x ∈ xs, p x = false) → new :: xs.filter (fun x => !p x) = new :: xs) := by
  refine ⟨?_, rfl, ?_, ?_⟩
  · rw [List.countP_cons]
    have hz : (xs.filter (fun x => !p x)).countP p = 0 := by
      rw [List.countP_eq_zero]
      intro a ha
      have := (List.mem_filter.mp ha).2
      simp at this
      simp [this]
    simp [hz, hp]
  · simp [List.filter_cons, hp, List.filter_filter]
  · intro hall
    congr 1
    rw [List.filter_eq_self]
    intro a ha
    simp [hall a ha]

/-- A store update step driven by a message whose `type` is none of the three
recognised strings returns the store unchanged. -/
lemma processMsg_unknown {s : CityStore} {j : Json} {t : String}
    (hty : jsGet j "type" = .ok (some (.str t)))
    (h1 : t ≠ "city_update") (h2 : t ≠ "ambulance_route_update")
    (h3 : t ≠ "incident_update") :
    processMsg s j = .ok s := by
  simp only [processMsg, hty, Except.bind]
  simp [h1, h2, h3, Except.bind, Bind.bind, Except.pure, Pure.pure]

/-- Fields of the state untouched by `closeSocket`. -/
lemma closeSocket_fields (s : ConnState) :
    (closeSocket s).reconnectAttempt = s.reconnectAttempt
    ∧ (closeSocket s).armedLog = s.armedLog
    ∧ (closeSocket s).connects = s.connects
    ∧ (closeSocket s).status = s.status
    ∧ (closeSocket s).reconnectTimer = none
    ∧ (closeSocket s).sock = none := by
  unfold closeSocket
  rcases hs : s.sock with _ | st
  · simp [hs]
  · cases st <;> simp [hs]

/-- Fields of the state untouched by `connect`, and its effects. -/
lemma connect_fields (s : ConnState) :
    (connect s).reconnectAttempt = s.reconnectAttempt
    ∧ (connect s).armedLog = s.armedLog
    ∧ (connect s).connects = s.connects + 1
    ∧ (connect s).status = ConnectionStatus.connecting
    ∧ (connect s).reconnectTimer = none
    ∧ (connect s).sock = some SockState.connectingS := by
  unfold connect
  rcases closeSocket_fields s with ⟨h1, h2, h3, _, h5, _⟩
  simp [h1, h2, h3, h5]

/-- `scheduleReconnect` preserves the armed-delay invariant. -/
lemma scheduleReconnect_armedInv {cfg : WsConfig} {s : ConnState}
    (h : ArmedInv cfg s) : ArmedInv cfg (scheduleReconnect cfg s) := by
  obtain ⟨hs, hb⟩ := h
  unfold scheduleReconnect
  by_cases hmax : cfg.reconnectMaxAttempts ≤ s.reconnectAttempt
  · simpa [hmax, ArmedInv] using ⟨hs, hb⟩
  · simp only [hmax, if_false, ArmedInv]
    constructor
    · show List.Pairwise (· ≤ ·)
        (s.armedLog ++ [cfg.reconnectIntervalMs * (s.reconnectAttempt + 1)])
      rw [List.pairwise_append]
      refine ⟨hs, List.pairwise_singleton _ _, ?_⟩
      intro x hx y hy
      simp at hy
      subst hy
      calc x ≤ cfg.reconnectIntervalMs * s.reconnectAttempt := hb x hx
        _ ≤ cfg.reconnectIntervalMs * (s.reconnectAttempt + 1) :=
            Nat.mul_le_mul_left _ (Nat.le_succ _)
    · intro d hd
      rcases List.mem_append.mp hd with hd | hd
      · calc d ≤ cfg.reconnectIntervalMs * s.reconnectAttempt := hb d hd
          _ ≤ cfg.reconnectIntervalMs * (s.reconnectAttempt + 1) :=
              Nat.mul_le_mul_left _ (Nat.le_succ _)
      · simp at hd
        subst hd
        exact Nat.le_refl _

/-- Every event other than a successful `onopen` preserves the armed-delay
invariant (only `onopen` resets the attempt counter). -/
lemma stepEvent_armedInv {cfg : WsConfig} {s : ConnState} {e : WsEvent}
    (he : e ≠ WsEvent.opened) (h : ArmedInv cfg s) :
    ArmedInv cfg (stepEvent cfg s e) := by
  cases e with
  | opened => exact absurd rfl he
  | closedAttached => exact scheduleReconnect_armedInv h
  | closedDetached => exact scheduleReconnect_armedInv h
  | errored => exact h
  | timerFire =>
      rcases connect_fields { s with reconnectTimer := none } with ⟨h1, h2, _⟩
      unfold ArmedInv at h ⊢
      rw [show stepEvent cfg s .timerFire = connect { s with reconnectTimer := none } from rfl,
        h1, h2]
      exact h
  | manualConnect =>
      rcases connect_fields s with ⟨h1, h2, _⟩
      unfold ArmedInv at h ⊢
      rw [show stepEvent cfg s .manualConnect = connect s from rfl, h1, h2]
      exact h
  | manualClose =>
      rcases closeSocket_fields s with ⟨h1, h2, _⟩
      unfold ArmedInv at h ⊢
      rw [show stepEvent cfg s .manualClose = closeSocket s from rfl, h1, h2]
      exact h

/-- Along any event sequence with no successful `onopen`, the armed-delay
invariant is preserved. -/
lemma runEvents_armedInv {cfg : WsConfig} {s : ConnState} {es : List WsEvent}
    (hes : WsEvent.opened ∉ es) (h : ArmedInv cfg s) :
    ArmedInv cfg (runEvents cfg s es) := by
  induction es generalizing s with
  | nil => exact h
  | cons e es ih =>
      have he : e ≠ WsEvent.opened := fun hh => hes (by simp [hh])
      have hes2 : WsEvent.opened ∉ es := fun hh => hes (List.mem_cons_of_mem _ hh)
      exact ih hes2 (stepEvent_armedInv he h)

/-- From a dormant state, any possible event other than a manual `connect()`
keeps the machine dormant, creates no connection, and preserves the status. -/
lemma dormant_step {cfg : WsConfig} {s : ConnState} {e : WsEvent}
    (hd : Dormant s) (hv : validEvent s e = true) (hne : e ≠ WsEvent.manualConnect) :
    Dormant (stepEvent cfg s e)
    ∧ (stepEvent cfg s e).connects = s.connects
    ∧ (stepEvent cfg s e).status = s.status := by
  obtain ⟨ht, hp, hsock⟩ := hd
  cases e with
  | opened =>
      simp [validEvent] at hv
      rcases hsock with h | h <;> rw [h] at hv <;> simp at hv
  | closedAttached =>
      simp [validEvent] at hv
      rcases hsock with h | h <;> rw [h] at hv <;> simp at hv
  | closedDetached =>
      simp [validEvent, hp] at hv
  | errored =>
      simp [validEvent] at hv
      rcases hsock with h | h <;> rw [h] at hv <;> simp at hv
  | timerFire =>
      simp [validEvent, ht] at hv
  | manualConnect => exact absurd rfl hne
  | manualClose =>
      rcases closeSocket_fields s with ⟨_, _, h3, h4, h5, h6⟩
      refine ⟨⟨h5, ?_, Or.inl h6⟩, h3, h4⟩
      show (closeSocket s).pendingCloseEvents = 0
      unfold closeSocket
      rcases hsock with h | h <;> rw [h] <;> simp [hp]

/-- From a dormant state, a whole valid event sequence without a manual
`connect()` creates no connection, preserves the status and stays dormant. -/
lemma runEvents_dormant {cfg : WsConfig} {s : ConnState} {es : List WsEvent}
    (hd : Dormant s) (hv : validFrom cfg s es = true)
    (hne : WsEvent.manualConnect ∉ es) :
    (runEvents cfg s es).connects = s.connects
    ∧ (runEvents cfg s es).status = s.status
    ∧ Dormant (runEvents cfg s es) := by
  induction es generalizing s with
  | nil => exact ⟨rfl, rfl, hd⟩
  | cons e es ih =>
      have hne1 : e ≠ WsEvent.manualConnect := fun hh => hne (by simp [hh])
      have hne2 : WsEvent.manualConnect ∉ es := fun hh => hne (List.mem_cons_of_mem _ hh)
      rw [validFrom, Bool.and_eq_true] at hv
      obtain ⟨hv1, hv2⟩ := hv
      obtain ⟨hd2, hc, hst⟩ := @dormant_step cfg _ _ hd hv1 hne1
      obtain ⟨ihc, ihst, ihd⟩ := ih hd2 hv2 hne2
      exact ⟨by rw [runEvents] at ihc ⊢; rw [List.foldl_cons, ihc, hc],
        by rw [runEvents] at ihst ⊢; rw [List.foldl_cons, ihst, hst], by
          rw [runEvents] at ihd ⊢; rw [List.foldl_cons]; exact ihd⟩

/-- Unfolded form of the record effect. -/
lemma recordSnapshot_def {α : Type} (buf : List α) (s : α) :
    recordSnapshot buf s = (buf ++ [s]).drop ((buf ++ [s]).length - 300) := rfl

/-- Folding the record effect over a stream keeps exactly the last 300
entries of everything ever recorded. -/
lemma recordSnapshot_foldl {α : Type} (snaps : List α) :
    ∀ buf : List α, buf.length ≤ 300 →
      snaps.foldl recordSnapshot buf
        = (buf ++ snaps).drop ((buf ++ snaps).length - 300) := by
  induction snaps with
  | nil =>
      intro buf h
      simp [Nat.sub_eq_zero_of_le h]
  | cons s rest ih =>
      intro buf h
      rw [List.foldl_cons]
      have hlen : (recordSnapshot buf s).length ≤ 300 := by
        rw [recordSnapshot_def]
        simp only [List.length_drop, List.length_append, List.length_singleton]
        omega
      have hle : (buf ++ [s]).length - 300 ≤ (buf ++ [s]).length := Nat.sub_le _ _
      rw [ih (recordSnapshot buf s) hlen]
      rw [recordSnapshot_def]
      rw [← List.drop_append_of_le_length hle]
      rw [List.drop_drop]
      rw [List.append_cons buf s rest]
      congr 1
      simp only [List.length_drop, List.length_append, List.length_cons,
        List.length_singleton]
      omega

/-- Property access on a value known not to be `null` never throws. -/
lemma jsGet_of_ne_null {j : Json} (h : j ≠ Json.null) (k : String) :
    jsGet j k = .ok (jsField j k) := by
  cases j <;> simp [jsGet] at h ⊢

/-- Dispatch: a message typed `city_update` runs the snapshot branch. -/
lemma processMsg_city {s : CityStore} {j : Json}
    (hty : jsGet j "type" = .ok (some (.str "city_update"))) :
    processMsg s j = applyCityUpdate j s := by
  unfold processMsg
  rw [hty]
  simp [Bind.bind, Except.bind]

/-- Dispatch: a message typed `ambulance_route_update` runs the route branch. -/
lemma processMsg_route {s : CityStore} {j : Json}
    (hty : jsGet j "type" = .ok (some (.str "ambulance_route_update"))) :
    processMsg s j = applyRouteUpdate j s := by
  unfold processMsg
  rw [hty]
  simp [Bind.bind, Except.bind]

/-- Dispatch: a message typed `incident_update` runs the incident branch. -/
lemma processMsg_incident {s : CityStore} {j : Json}
    (hty : jsGet j "type" = .ok (some (.str "incident_update"))) :
    processMsg s j = applyIncidentUpdate j s := by
  unfold processMsg
  rw [hty]
  simp [Bind.bind, Except.bind]

/-- Snapshot branch, computed: every collection is replaced by the
corresponding field of the message (with the `?? []` defaults). -/
lemma applyCityUpdate_spec {s : CityStore} {j : Json} (h : j ≠ Json.null) :
    applyCityUpdate j s
      = .ok { cityUpdate := some j
            , incidents := jsNullish (jsField j "incidents") (.arr [])
            , routes := jsNullish (jsField j "ambulance_routes") (.arr [])
            , events := jsNullish (jsField j "event_log_tail") (.arr []) } := by
  unfold applyCityUpdate
  rw [jsGet_of_ne_null h, jsGet_of_ne_null h, jsGet_of_ne_null h]
  rfl

/-- Incident branch, computed on a well-formed message and collection. -/
lemma applyIncidentUpdate_spec {s : CityStore} {j inc : Json} {iid : Option Json}
    {prev : List Json}
    (hinc : jsGet j "incident" = .ok (some inc))
    (hid : jsGet inc "incident_id" = .ok iid)
    (hprev : s.incidents = .arr prev)
    (hval : ∀ x ∈ prev, x ≠ Json.null) :
    applyIncidentUpdate j s
      = .ok { s with incidents := Json.arr (inc :: prev.filter (fun x => !decide (jsField x "incident_id" = iid))) } := by
  unfold applyIncidentUpdate
  rw [hinc]
  simp only [Bind.bind, Except.bind]
  rw [hid]
  simp only [Except.bind]
  rw [hprev]
  simp [jsFilterIdNe_eq_filter hval, Pure.pure, Except.pure]

/-- Route branch, computed on a well-formed message and collection. -/
lemma applyRouteUpdate_spec {s : CityStore} {j rt : Json} {rid : Option Json}
    {prev : List Json}
    (hrt : jsGet j "route" = .ok (some rt))
    (hid : jsGet rt "route_id" = .ok rid)
    (hprev : s.routes = .arr prev)
    (hval : ∀ x ∈ prev, x ≠ Json.null) :
    applyRouteUpdate j s
      = .ok { s with routes := Json.arr (rt :: prev.filter (fun x => !decide (jsField x "route_id" = rid))) } := by
  unfold applyRouteUpdate
  rw [hrt]
  simp only [Bind.bind, Except.bind]
  rw [hid]
  simp only [Except.bind]
  rw [hprev]
  simp [jsFilterIdNe_eq_filter hval, Pure.pure, Except.pure]

/-- Processing a single message. -/
lemma processAll_singleton (s : CityStore) (j : Json) :
    processAll s [j] = processMsg s j := by
  unfold processAll
  cases h : processMsg s j <;> simp [h, Bind.bind, Except.bind, processAll]

/-- The service emits nothing on a string `type` outside its switch. -/
lemma handleMessage_unknown {j : Json} {t : String}
    (hf : jsField j "type" = some (.str t))
    (h : t ∉ (["simulation_update", "city_update", "incident_update",
      "ambulance_route_update", "connection_status", "pong", "error"] : List String)) :
    handleMessage j = [] := by
  obtain ⟨kvs, rfl⟩ := jsField_eq_some_obj hf
  simp only [List.mem_cons, List.mem_singleton, not_or] at h
  obtain ⟨h1, h2, h3, h4, h5, h6, h7, -⟩ := h
  simp [handleMessage, jsFalsy, hf, h1, h2, h3, h4, h5, h6, h7]

/-! ### Claim theorems -/

/-- C3: codec totality fails in the hook.  An unparseable payload is silently
dropped by both handlers, and the service also drops the parseable payload
`"null"` (no string `type` field) thanks to its `!message` guard; but the
hook has `ws.onmessage` read `msg.type` outside its `try`/`catch` and throws a
TypeError on that same payload instead of dropping it, contradicting the
claim that such payloads never throw. -/
theorem null_payload_divergence :
    onMessageRaw (.error ()) CityStore.init = .ok CityStore.init
    ∧ onMessageRaw (.ok .null) CityStore.init = .error ()
    ∧ serviceOnMessage (.ok .null) = []
    ∧ serviceOnMessage (.error ()) = [] :=
  ⟨rfl, rfl, rfl, rfl⟩

/-- C7: a parseable message whose string `type` is outside the recognised set
leaves the whole store unchanged in the hook (hence nodes, incidents, routes
and events all unchanged) and is not treated as an error; the service
additionally emits nothing for a `type` outside its own switch. -/
theorem unknown_type_ignored (s : CityStore) (j : Json) (t : String)
    (hty : jsGet j "type" = .ok (some (.str t)))
    (h1 : t ≠ "city_update") (h2 : t ≠ "ambulance_route_update")
    (h3 : t ≠ "incident_update") :
    processMsg s j = .ok s
    ∧ (t ∉ (["simulation_update", "connection_status", "pong", "error"] : List String) →
        handleMessage j = []) := by
  refine ⟨processMsg_unknown hty h1 h2 h3, ?_⟩
  intro hmem
  obtain ⟨hnn, hf⟩ := jsGet_eq_ok hty
  simp only [List.mem_cons, List.mem_singleton, not_or] at hmem
  obtain ⟨hsim, hconn, hpong, herr, -⟩ := hmem
  exact handleMessage_unknown hf (by simp [hsim, h1, h3, h2, hconn, hpong, herr])

/-- Witness for the unknown-type claim at the concrete message
`{"type": "unrecognized_kind"}`. -/
theorem unknown_type_ignored_witness :
    processMsg CityStore.init (.obj [("type", .str "unrecognized_kind")]) = .ok CityStore.init
    ∧ handleMessage (.obj [("type", .str "unrecognized_kind")]) = [] := by
  have h := unknown_type_ignored CityStore.init (.obj [("type", .str "unrecognized_kind")])
    "unrecognized_kind" rfl (by decide) (by decide) (by decide)
  exact ⟨h.1, h.2 (by decide)⟩

/-- C8 counterexample: with event log `["e1"]` retained, processing a
`city_update` carrying `event_log_tail = ["e2"]` leaves `["e2"]` — the tail
replaces the retained log instead of being appended (which would have given
`["e1", "e2"]`). -/
theorem event_log_replaced_counterexample :
    processMsg
        { cityUpdate := none, incidents := .arr [], routes := .arr [], events := .arr [.str "e1"] }
        (.obj [("type", .str "city_update"), ("event_log_tail", .arr [.str "e2"])])
      = .ok { cityUpdate := some (.obj [("type", .str "city_update"), ("event_log_tail", .arr [.str "e2"])]), incidents := .arr [], routes := .arr [], events := .arr [.str "e2"] }
    ∧ Json.arr [.str "e2"] ≠ Json.arr [.str "e1", .str "e2"] :=
  ⟨rfl, by decide⟩

/-- C8 amended: on every `city_update` the retained event log is replaced
wholesale by the `event_log_tail ?? []` of the message; no client-side append or
trimming happens (the only bound is the one the server applied to the tail
it sent). -/
theorem event_log_replacement (s : CityStore) (j : Json)
    (hty : jsGet j "type" = .ok (some (.str "city_update"))) :
    ∃ s2, processMsg s j = .ok s2
      ∧ s2.events = jsNullish (jsField j "event_log_tail") (.arr []) := by
  obtain ⟨hnn, -⟩ := jsGet_eq_ok hty
  exact ⟨_, by rw [processMsg_city hty, applyCityUpdate_spec hnn], rfl⟩

/-- Witness for the event-log replacement at a concrete snapshot message. -/
theorem event_log_replacement_witness :
    ∃ s2, processMsg
        { cityUpdate := none, incidents := .arr [], routes := .arr [], events := .arr [.str "e1"] }
        (.obj [("type", .str "city_update"), ("event_log_tail", .arr [.str "e2"])])
      = .ok s2
      ∧ s2.events = jsNullish
          (jsField (.obj [("type", .str "city_update"), ("event_log_tail", .arr [.str "e2"])]) "event_log_tail")
          (.arr []) :=
  event_log_replacement _ _ rfl

/-- C9: the replay buffer is a capacity-300 FIFO ring: its length never
exceeds 300 whatever is recorded, it always holds exactly the most recent
300 recorded snapshots in arrival order, and recording 301 snapshots leaves
exactly 300 with the first one evicted. -/
theorem replay_buffer_fifo {α : Type} (snaps : List α) :
    (snaps.foldl recordSnapshot []).length ≤ 300
    ∧ snaps.foldl recordSnapshot [] = snaps.drop (snaps.length - 300)
    ∧ (snaps.length = 301 → snaps.foldl recordSnapshot [] = snaps.drop 1) := by
  have h := recordSnapshot_foldl snaps [] (by simp)
  simp only [List.nil_append] at h
  refine ⟨?_, h, ?_⟩
  · rw [h, List.length_drop]
    omega
  · intro h301
    rw [h, h301]

/-- Witness for the replay FIFO bound: recording 301 snapshots keeps the
last 300, evicting the first. -/
theorem replay_buffer_fifo_witness :
    ((List.range 301).foldl recordSnapshot []).length ≤ 300
    ∧ (List.range 301).foldl recordSnapshot [] = (List.range 301).drop 1 :=
  ⟨(replay_buffer_fifo (List.range 301)).1,
   (replay_buffer_fifo (List.range 301)).2.2 (by simp)⟩

/-- C10: the replay cursor read clamps any integer cursor into bounds: on a
non-empty buffer it returns exactly the entry at index
`max 0 (min cursor (length - 1))` — always in bounds, always `some` — and it
returns `none` exactly when the buffer is empty. -/
theorem replay_cursor_clamped {α : Type} (buf : List α) (i : Int) :
    (buf ≠ [] →
        (max 0 (min i ((buf.length : Int) - 1))).toNat < buf.length
        ∧ currentSnapshot buf i = buf[(max 0 (min i ((buf.length : Int) - 1))).toNat]?
        ∧ (currentSnapshot buf i).isSome = true)
    ∧ (currentSnapshot buf i = none ↔ buf = []) := by
  by_cases hne : buf = []
  · subst hne
    refine ⟨fun h => absurd rfl h, ?_⟩
    simp [currentSnapshot]
  · have hpos : 0 < buf.length := List.length_pos.mpr hne
    have hb1 : min i ((buf.length : Int) - 1) ≤ (buf.length : Int) - 1 := min_le_right _ _
    have hb2 : (0 : Int) ≤ max 0 (min i ((buf.length : Int) - 1)) := le_max_left _ _
    have hb3 : max 0 (min i ((buf.length : Int) - 1)) ≤ (buf.length : Int) - 1 := by
      refine max_le ?_ hb1
      omega
    have hidx : (max 0 (min i ((buf.length : Int) - 1))).toNat < buf.length := by omega
    have hcur : currentSnapshot buf i
        = buf[(max 0 (min i ((buf.length : Int) - 1))).toNat]? := by
      simp [currentSnapshot, Nat.pos_iff_ne_zero.mp hpos]
    refine ⟨fun _ => ⟨hidx, hcur, ?_⟩, ?_, fun h => absurd h hne⟩
    · rw [hcur, List.getElem?_eq_getElem hidx]
      rfl
    · intro hnone
      rw [hcur, List.getElem?_eq_getElem hidx] at hnone
      exact absurd hnone (by simp)

/-- Witness for the clamped replay cursor at buffer `[10, 20, 30]` and the
out-of-range cursor `-5` (clamped to index 0). -/
theorem replay_cursor_clamped_witness :
    (max 0 (min (-5 : Int) ((([10, 20, 30] : List Nat).length : Int) - 1))).toNat
        < ([10, 20, 30] : List Nat).length
    ∧ currentSnapshot ([10, 20, 30] : List Nat) (-5)
        = ([10, 20, 30] : List Nat)[(max 0 (min (-5 : Int) ((([10, 20, 30] : List Nat).length : Int) - 1))).toNat]? :=
  ⟨((replay_cursor_clamped ([10, 20, 30] : List Nat) (-5)).1 (by decide)).1,
   ((replay_cursor_clamped ([10, 20, 30] : List Nat) (-5)).1 (by decide)).2.1⟩

/-- C1: snapshot authority.  Whatever was processed before (any mix of
snapshots and incremental updates), immediately after the nth message — a
`city_update` carrying `incidents`, `ambulance_routes` and `city.nodes`
arrays — the incident collection, route collection and derived node
list are exactly those arrays. -/
theorem snapshot_authority (msgs : List Json) (n : Nat) (s0 sN : CityStore)
    (cu city : Json) (incs rts nds : List Json)
    (hn : msgs[n]? = some cu)
    (hty : jsGet cu "type" = .ok (some (.str "city_update")))
    (hincs : jsField cu "incidents" = some (.arr incs))
    (hrts : jsField cu "ambulance_routes" = some (.arr rts))
    (hcity : jsField cu "city" = some city)
    (hnds : jsField city "nodes" = some (.arr nds))
    (hrun : processAll s0 (msgs.take (n + 1)) = .ok sN) :
    sN.incidents = .arr incs ∧ sN.routes = .arr rts ∧ storeNodes sN = .arr nds := by
  obtain ⟨hnn, htyf⟩ := jsGet_eq_ok hty
  have htake : msgs.take (n + 1) = msgs.take n ++ [cu] := by
    rw [List.take_succ, hn]
    rfl
  rw [htake, processAll_append] at hrun
  cases hmid : processAll s0 (msgs.take n) with
  | error e =>
      rw [hmid] at hrun
      simp [Except.bind] at hrun
  | ok sMid =>
      rw [hmid] at hrun
      simp only [Except.bind] at hrun
      rw [processAll_singleton, processMsg_city hty, applyCityUpdate_spec hnn] at hrun
      injection hrun with h2
      subst h2
      obtain ⟨kvs, hcu⟩ := jsField_eq_some_obj htyf
      obtain ⟨kvs2, hcity2⟩ := jsField_eq_some_obj hnds
      subst hcu
      refine ⟨?_, ?_, ?_⟩
      · simp [hincs, jsNullish]
      · simp [hrts, jsNullish]
      · subst hcity2
        simp [storeNodes, jsOptChain, hcity, hnds, jsNullish]

/-- Witness for snapshot authority on a 2-message stream whose first message
is an incremental incident update. -/
theorem snapshot_authority_witness :
    wStore.incidents = .arr [.str "i2"] ∧ wStore.routes = .arr [.str "r2"]
    ∧ storeNodes wStore = .arr [.str "n1"] :=
  snapshot_authority wMsgs 1 CityStore.init wStore wCu
    (.obj [("nodes", .arr [.str "n1"])]) [.str "i2"] [.str "r2"] [.str "n1"]
    rfl rfl rfl rfl rfl rfl rfl

/-- C2: incremental upsert.  For an `incident_update` (resp.
`ambulance_route_update`) carrying an entry with some id, processed against
any array-shaped collection of non-null entries, the new collection is the
entry followed by the old entries with other ids: it contains exactly one
entry with that id, that entry is the data of the message and surfaces first,
entries with other ids are retained in order, and an id not present before
results in plain insertion at the front. -/
theorem incremental_upsert :
    (∀ (s : CityStore) (j inc : Json) (iid : Option Json) (prev : List Json),
      jsGet j "type" = .ok (some (.str "incident_update")) →
      jsGet j "incident" = .ok (some inc) →
      jsGet inc "incident_id" = .ok iid →
      s.incidents = .arr prev →
      (∀ x ∈ prev, x ≠ Json.null) →
      processMsg s j = .ok { s with incidents := Json.arr (inc :: prev.filter (fun x => !decide (jsField x "incident_id" = iid))) }
      ∧ (inc :: prev.filter (fun x => !decide (jsField x "incident_id" = iid))).countP (fun x => decide (jsField x "incident_id" = iid)) = 1
      ∧ (inc :: prev.filter (fun x => !decide (jsField x "incident_id" = iid))).head? = some inc
      ∧ (inc :: prev.filter (fun x => !decide (jsField x "incident_id" = iid))).filter (fun x => !decide (jsField x "incident_id" = iid)) = prev.filter (fun x => !decide (jsField x "incident_id" = iid))
      ∧ ((∀ x ∈ prev, jsField x "incident_id" ≠ iid) → inc :: prev.filter (fun x => !decide (jsField x "incident_id" = iid)) = inc :: prev))
    ∧ (∀ (s : CityStore) (j rt : Json) (rid : Option Json) (prev : List Json),
      jsGet j "type" = .ok (some (.str "ambulance_route_update")) →
      jsGet j "route" = .ok (some rt) →
      jsGet rt "route_id" = .ok rid →
      s.routes = .arr prev →
      (∀ x ∈ prev, x ≠ Json.null) →
      processMsg s j = .ok { s with routes := Json.arr (rt :: prev.filter (fun x => !decide (jsField x "route_id" = rid))) }
      ∧ (rt :: prev.filter (fun x => !decide (jsField x "route_id" = rid))).countP (fun x => decide (jsField x "route_id" = rid)) = 1
      ∧ (rt :: prev.filter (fun x => !decide (jsField x "route_id" = rid))).head? = some rt
      ∧ (rt :: prev.filter (fun x => !decide (jsField x "route_id" = rid))).filter (fun x => !decide (jsField x "route_id" = rid)) = prev.filter (fun x => !decide (jsField x "route_id" = rid))
      ∧ ((∀ x ∈ prev, jsField x "route_id" ≠ rid) → rt :: prev.filter (fun x => !decide (jsField x "route_id" = rid)) = rt :: prev)) := by
  constructor
  · intro s j inc iid prev hty hinc hid hprev hval
    obtain ⟨hincnn, hidf⟩ := jsGet_eq_ok hid
    have hp : (fun x => decide (jsField x "incident_id" = iid)) inc = true := by
      simp [hidf]
    obtain ⟨c1, c2, c3, c4⟩ :=
      upsertList_spec (fun x => decide (jsField x "incident_id" = iid)) inc prev hp
    refine ⟨?_, c1, c2, c3, ?_⟩
    · rw [processMsg_incident hty, applyIncidentUpdate_spec hinc hid hprev hval]
    · intro hother
      refine c4 ?_
      intro x hx
      simp [hother x hx]
  · intro s j rt rid prev hty hrt hid hprev hval
    obtain ⟨hrtnn, hidf⟩ := jsGet_eq_ok hid
    have hp : (fun x => decide (jsField x "route_id" = rid)) rt = true := by
      simp [hidf]
    obtain ⟨c1, c2, c3, c4⟩ :=
      upsertList_spec (fun x => decide (jsField x "route_id" = rid)) rt prev hp
    refine ⟨?_, c1, c2, c3, ?_⟩
    · rw [processMsg_route hty, applyRouteUpdate_spec hrt hid hprev hval]
    · intro hother
      refine c4 ?_
      intro x hx
      simp [hother x hx]

/-- Witness for the upsert claim: updating incident `A` against `[A, B]`
and inserting route `R1` against `[]`. -/
theorem incremental_upsert_witness :
    (processMsg wS2 wMsg2 = .ok { wS2 with incidents := Json.arr (wInc2 :: ([wInc1, wIncB] : List Json).filter (fun x => !decide (jsField x "incident_id" = some (.str "A")))) }
      ∧ (wInc2 :: ([wInc1, wIncB] : List Json).filter (fun x => !decide (jsField x "incident_id" = some (.str "A")))).countP (fun x => decide (jsField x "incident_id" = some (.str "A"))) = 1
      ∧ (wInc2 :: ([wInc1, wIncB] : List Json).filter (fun x => !decide (jsField x "incident_id" = some (.str "A")))).head? = some wInc2)
    ∧ processMsg wS2 wMsgR = .ok { wS2 with routes := Json.arr (wRt :: ([] : List Json).filter (fun x => !decide (jsField x "route_id" = some (.str "R1")))) } := by
  have h1 := incremental_upsert.1 wS2 wMsg2 wInc2 (some (.str "A")) [wInc1, wIncB]
    rfl rfl rfl rfl (by decide)
  have h2 := incremental_upsert.2 wS2 wMsgR wRt (some (.str "R1")) []
    rfl rfl rfl rfl (by decide)
  exact ⟨⟨h1.1, h1.2.1, h1.2.2.1⟩, h2.1⟩

/-- C5: sends require an OPEN transport.  When the socket is absent or not
OPEN, `sendMessage` returns `false` and the whole client state — transmitted
payload log and store collections included — is exactly unchanged; when it
is OPEN, the serialized message is transmitted (appended to the send log)
and the call returns `true`, still leaving the store untouched. -/
theorem send_requires_open (c : ClientState) (msg : Json) :
    (c.conn.sock ≠ some SockState.openS → clientSend c msg = (c, false))
    ∧ (c.conn.sock = some SockState.openS →
        (clientSend c msg).2 = true
        ∧ (clientSend c msg).1.conn.sent = c.conn.sent ++ [msg]
        ∧ (clientSend c msg).1.store = c.store) := by
  constructor
  · intro h
    rcases hs : c.conn.sock with _ | st
    · unfold clientSend sendMessage
      rw [hs]
    · cases st with
      | openS => exact absurd hs h
      | connectingS => unfold clientSend sendMessage; rw [hs]
      | closedS => unfold clientSend sendMessage; rw [hs]
  · intro h
    unfold clientSend sendMessage
    rw [h]
    exact ⟨rfl, rfl, rfl⟩

/-- Witness for the send claim: a closed client drops the message, an open
client transmits it with the store untouched. -/
theorem send_requires_open_witness :
    clientSend wClosedClient (.str "ping") = (wClosedClient, false)
    ∧ (clientSend wOpenClient (.str "ping")).2 = true
    ∧ (clientSend wOpenClient (.str "ping")).1.conn.sent
        = wOpenClient.conn.sent ++ [.str "ping"]
    ∧ (clientSend wOpenClient (.str "ping")).1.store = wOpenClient.store := by
  have h1 := (send_requires_open wClosedClient (.str "ping")).1 (by decide)
  have h2 := (send_requires_open wOpenClient (.str "ping")).2 rfl
  exact ⟨h1, h2.1, h2.2.1, h2.2.2⟩

/-- C4: reconnect backoff.  Along any event sequence with no successful
`onopen`, the ghost log of delays passed to the reconnect timer is
nondecreasing (delay of attempt k is at least the delay of attempt k-1,
being `interval * k`); once the attempt counter has reached the configured
maximum, `scheduleReconnect` sets terminal `error` status and arms no timer;
and from a quiescent error state every possible event sequence without a
manual `connect()` opens no new transport connection and stays in `error`. -/
theorem reconnect_backoff (cfg : WsConfig) :
    (∀ (s : ConnState) (es : List WsEvent), s.armedLog = [] → WsEvent.opened ∉ es →
        List.Sorted (· ≤ ·) (runEvents cfg s es).armedLog)
    ∧ (∀ s : ConnState, cfg.reconnectMaxAttempts ≤ s.reconnectAttempt →
        (scheduleReconnect cfg s).status = ConnectionStatus.error
        ∧ (scheduleReconnect cfg s).reconnectTimer = none)
    ∧ (∀ (s : ConnState) (es : List WsEvent), s.status = ConnectionStatus.error →
        Dormant s → validFrom cfg s es = true → WsEvent.manualConnect ∉ es →
        (runEvents cfg s es).connects = s.connects
        ∧ (runEvents cfg s es).status = ConnectionStatus.error) := by
  refine ⟨?_, ?_, ?_⟩
  · intro s es hlog hno
    have h0 : ArmedInv cfg s := by
      constructor
      · rw [hlog]; exact List.sorted_nil
      · rw [hlog]; intro d hd; cases hd
    exact (runEvents_armedInv hno h0).1
  · intro s h
    unfold scheduleReconnect
    simp [h]
  · intro s es herr hd hv hne
    obtain ⟨hc, hst, -⟩ := runEvents_dormant hd hv hne
    exact ⟨hc, by rw [hst, herr]⟩

/-- Witness for the backoff claim: two consecutive drops give nondecreasing
delays, the capped schedule is terminal, and the quiescent error state stays
put under a manual close. -/
theorem reconnect_backoff_witness :
    List.Sorted (· ≤ ·)
      (runEvents defaultConfig connectedState
        [.closedAttached, .timerFire, .closedAttached]).armedLog
    ∧ ((scheduleReconnect defaultConfig { connectedState with reconnectAttempt := 10 }).status
          = ConnectionStatus.error
        ∧ (scheduleReconnect defaultConfig { connectedState with reconnectAttempt := 10 }).reconnectTimer
          = none)
    ∧ ((runEvents defaultConfig errDormantState [.manualClose]).connects
          = errDormantState.connects
        ∧ (runEvents defaultConfig errDormantState [.manualClose]).status
          = ConnectionStatus.error) := by
  refine ⟨?_, ?_, ?_⟩
  · exact (reconnect_backoff defaultConfig).1 connectedState
      [.closedAttached, .timerFire, .closedAttached] rfl (by decide)
  · exact (reconnect_backoff defaultConfig).2.1 _ (by decide)
  · exact (reconnect_backoff defaultConfig).2.2 errDormantState [.manualClose]
      rfl (by decide) rfl (by decide)

/-- C6 counterexample: from a connected client, `closeSocket` (the
intentional disconnect of the hook, also run on unmount) followed by the close event of
the intentionally closed socket — whose handler is still attached — and the
timer it arms, a new transport connection is opened with no manual
`connect()` anywhere in the sequence.  Intentional disconnect is therefore
not terminal. -/
theorem disconnect_not_terminal_counterexample :
    validFrom defaultConfig connectedState [.manualClose, .closedDetached, .timerFire] = true
    ∧ WsEvent.manualConnect ∉ ([.manualClose, .closedDetached, .timerFire] : List WsEvent)
    ∧ (runEvents defaultConfig connectedState
          [.manualClose, .closedDetached, .timerFire]).connects
        = connectedState.connects + 1 :=
  ⟨rfl, by decide, rfl⟩

/-- C6 amended: `closeSocket` does cancel the pending reconnect timer and
drop the socket, but the state is not terminal: the close event fired by the
intentionally closed socket still runs `scheduleReconnect`, which re-arms a
reconnect timer (and so an automatic `connect()`) whenever the attempt
counter is below the maximum. -/
theorem disconnect_reschedules (cfg : WsConfig) (s : ConnState) :
    (closeSocket s).reconnectTimer = none
    ∧ (closeSocket s).sock = none
    ∧ (s.reconnectAttempt < cfg.reconnectMaxAttempts →
        (runEvents cfg s [.manualClose, .closedDetached]).reconnectTimer
          = some (cfg.reconnectIntervalMs * (s.reconnectAttempt + 1))
        ∧ (runEvents cfg s [.manualClose, .closedDetached]).status
          = ConnectionStatus.connecting) := by
  obtain ⟨f1, f2, f3, f4, f5, f6⟩ := closeSocket_fields s
  refine ⟨f5, f6, ?_⟩
  intro hlt
  have hne : ¬ cfg.reconnectMaxAttempts ≤ s.reconnectAttempt := Nat.not_le.mpr hlt
  constructor
  · show (scheduleReconnect cfg { closeSocket s with
        pendingCloseEvents := (closeSocket s).pendingCloseEvents - 1
      , status := ConnectionStatus.disconnected }).reconnectTimer = _
    unfold scheduleReconnect
    simp [f1, hne]
  · show (scheduleReconnect cfg { closeSocket s with
        pendingCloseEvents := (closeSocket s).pendingCloseEvents - 1
      , status := ConnectionStatus.disconnected }).status = _
    unfold scheduleReconnect
    simp [f1, hne]

/-- Witness for the amended disconnect claim at the connected state. -/
theorem disconnect_reschedules_witness :
    (closeSocket connectedState).reconnectTimer = none
    ∧ (closeSocket connectedState).sock = none
    ∧ ((runEvents defaultConfig connectedState [.manualClose, .closedDetached]).reconnectTimer
          = some (defaultConfig.reconnectIntervalMs * (connectedState.reconnectAttempt + 1))
        ∧ (runEvents defaultConfig connectedState [.manualClose, .closedDetached]).status
          = ConnectionStatus.connecting) := by
  have h := disconnect_reschedules defaultConfig connectedState
  exact ⟨h.1, h.2.1, h.2.2 (by decide)⟩

end STMS
